import Mathlib

/-!
Shallow embedding of `src/quality.py` (`quality_checks`) from the
kpi-integrity-decision-trust-system repository, together with theorems
checking the specification's claims about it.

Conventions of the embedding:
* pandas timestamps become natural-number UNIX seconds; flooring to a UTC
  calendar day (`.dt.floor("D")`) becomes integer division by 86400;
* the nullable decimal `amount` becomes `Option ℚ`;
* a pandas Series produced by `groupby("date").size()` is represented by a
  total count function on days together with its (sorted) index, the list of
  days on which the count is positive;
* assigning a Series into the daily frame `q` and then `q.fillna(0)` is
  represented by an `if` on membership in the Series index: days outside the
  index receive the fill value 0;
* float arithmetic is modelled exactly over ℚ (and ℝ where `exp`/`sqrt`
  appear).
-/

/-- The four event names of the schema (`event_name` enum). -/
inductive EventName where
  | session_start
  | level_complete
  | purchase
  | in_app_purchase
deriving DecidableEq, Repr

/-- One row of the input event table: `user_id`, `event_ts` (UNIX seconds,
UTC), `event_name`, nullable `amount`. -/
structure Event where
  user_id : Nat
  event_ts : Nat
  event_name : EventName
  amount : Option ℚ
deriving DecidableEq, Repr

/-- `df["date"] = df["event_ts"].dt.floor("D")`: the UTC calendar day of an
event, as a day number. -/
def eday (e : Event) : Nat := e.event_ts / 86400

/-- Membership in `["purchase", "in_app_purchase"]`, the filter defining
`purch`. -/
def isPurchType : EventName → Bool
  | .purchase => true
  | .in_app_purchase => true
  | _ => false

/-- `purch.groupby("date").size()` evaluated at day `d`: the number of
purchase-type events on day `d`. -/
def purchase_events (es : List Event) (d : Nat) : Nat :=
  es.countP fun e => isPurchType e.event_name && (eday e == d)

/-- `df[df["event_name"] == "purchase"].groupby("date").size()` at day `d`. -/
def purchaseNameCount (es : List Event) (d : Nat) : Nat :=
  es.countP fun e => (e.event_name == .purchase) && (eday e == d)

/-- `df[df["event_name"] == "in_app_purchase"].groupby("date").size()` at day
`d`. -/
def iapCount (es : List Event) (d : Nat) : Nat :=
  es.countP fun e => (e.event_name == .in_app_purchase) && (eday e == d)

/-- `df[df["event_name"] == "session_start"].groupby("date").size()` at day
`d`. -/
def session_events (es : List Event) (d : Nat) : Nat :=
  es.countP fun e => (e.event_name == .session_start) && (eday e == d)

/-- Whether the full tuple `(user_id, event_ts, event_name, amount)` of two
rows coincides — the `subset` of `df.duplicated`. -/
def sameTuple (e e' : Event) : Bool :=
  (e.user_id == e'.user_id) && (e.event_ts == e'.event_ts) &&
    (e.event_name == e'.event_name) && (e.amount == e'.amount)

/-- `df.duplicated(subset=[...], keep=False)` at a row: the tuple occurs at
least twice in the table. -/
def isDupRow (es : List Event) (e : Event) : Bool :=
  2 ≤ es.countP (sameTuple e)

/-- `df[dup_mask].groupby("date").size()` at day `d`: number of events on day
`d` whose tuple occurs at least twice (all occurrences counted). -/
def dup_count (es : List Event) (d : Nat) : Nat :=
  es.countP fun e => (eday e == d) && isDupRow es e

/-- `neg_amount`: purchase-type events whose `amount.fillna(0)` is negative,
grouped by day. -/
def neg_amount (es : List Event) (d : Nat) : Nat :=
  es.countP fun e =>
    isPurchType e.event_name && (eday e == d) && decide (e.amount.getD 0 < 0)

/-- `df["date"].min()` as a day number (0 on empty input, where pandas gives
`NaT`; the empty case is handled separately in `quality_checks`). -/
def minDay (es : List Event) : Nat := ((es.map eday).min?).getD 0

/-- `df["date"].max()` as a day number (0 on empty input). -/
def maxDay (es : List Event) : Nat := ((es.map eday).max?).getD 0

/-- `pd.date_range(df["date"].min(), df["date"].max(), freq="D")`: every
calendar day of the observed range, ascending. -/
def daysList (es : List Event) : List Nat :=
  List.range' (minDay es) (maxDay es - minDay es + 1)

/-- The sorted index of `purch.groupby("date").size()`: the days of the range
carrying at least one purchase-type event. -/
def purchDays (es : List Event) : List Nat :=
  (daysList es).filter fun d => 0 < purchase_events es d

/-- The sorted index of `dup_count`: the days carrying at least one
duplicated row. -/
def dupDays (es : List Event) : List Nat :=
  (daysList es).filter fun d => 0 < dup_count es d

/-- The sorted index of `sessions`: the days carrying at least one
`session_start` event. -/
def sessDays (es : List Event) : List Nat :=
  (daysList es).filter fun d => 0 < session_events es d

/-- Insert a rational into a sorted list, keeping it sorted. -/
def insertSorted (x : ℚ) : List ℚ → List ℚ
  | [] => [x]
  | y :: ys => if x ≤ y then x :: y :: ys else y :: insertSorted x ys

/-- Insertion sort on rationals (ascending). -/
def qsort (l : List ℚ) : List ℚ := l.foldr insertSorted []

/-- The median as pandas computes it: middle element of the sorted values for
odd length, mean of the two middle elements for even length (0 on the empty
list, a case the callers never hit). -/
def qmedian (l : List ℚ) : ℚ :=
  let s := qsort l
  let n := s.length
  if n % 2 = 1 then s.getD (n / 2) 0
  else (s.getD (n / 2 - 1) 0 + s.getD (n / 2) 0) / 2

/-- `series.rolling(7, min_periods=1)` window ending at index label `d`: the
last up-to-7 labels of the (sorted) index that are `≤ d`.  For `d` in the
index this is the positional trailing window ending at `d` inclusive. -/
def rollingWindow (idx : List Nat) (d : Nat) : List Nat :=
  ((idx.filter fun x => x ≤ d).reverse).take 7

/-- `purchase_events.rolling(7, min_periods=1).median()` at day `d` — the
`replace(0, np.nan)` that follows in the source is represented by the zero
test in `score_completeness`. -/
def baseline_purchase (es : List Event) (d : Nat) : ℚ :=
  qmedian ((rollingWindow (purchDays es) d).map fun x => (purchase_events es x : ℚ))

/-- The `score_completeness` column of the output frame:
`(purchase_events / baseline_purchase).clip(0, 1).fillna(0)`, reindexed over
all days and `fillna(0)`-filled.  Days outside the purchase index are NaN in
the Series and become 0; a zero baseline was made NaN by `replace(0, np.nan)`
and the resulting NaN ratio also becomes 0. -/
def score_completeness (es : List Event) (d : Nat) : ℚ :=
  if 0 < purchase_events es d then
    (if baseline_purchase es d = 0 then 0
     else min (max ((purchase_events es d : ℚ) / baseline_purchase es d) 0) 1)
  else 0

/-- `(df[df["event_name"] == "purchase"].groupby("date").size() > 0).astype(int)`
as a Series: defined (with value 1) exactly on days with a `purchase` event. -/
def has_purchase (es : List Event) (d : Nat) : Option Nat :=
  if 0 < purchaseNameCount es d then some 1 else none

/-- `has_iap` as a Series: defined (with value 1) exactly on days with an
`in_app_purchase` event. -/
def has_iap (es : List Event) (d : Nat) : Option Nat :=
  if 0 < iapCount es d then some 1 else none

/-- pandas `&` between two boolean Series after index alignment: positions
missing on either side are filled with `False`. -/
def alignedAnd (a b : Option Bool) : Bool := a.getD false && b.getD false

/-- `schema_drift_flag = ((has_iap == 1) & (has_purchase == 0)).astype(int)`:
the comparisons are taken entrywise on each Series' own index, and the `&`
aligns the two indexes, filling missing entries with `False`. -/
def schema_drift_flag (es : List Event) (d : Nat) : Bool :=
  alignedAnd ((has_iap es d).map fun v => v == 1)
    ((has_purchase es d).map fun v => v == 0)

/-- The `score_schema` column: `np.where(schema_drift_flag == 1, 0.60, 1.00)`
on the union index (days with at least one purchase-type event), 0 elsewhere
after `fillna(0)`. -/
def score_schema (es : List Event) (d : Nat) : ℚ :=
  if 0 < purchase_events es d then (if schema_drift_flag es d then 0.60 else 1)
  else 0

/-- The `schema_drift_flag` column of the output frame after `fillna(0)`. -/
def schemaFlagCol (es : List Event) (d : Nat) : Nat :=
  if 0 < purchase_events es d then (if schema_drift_flag es d then 1 else 0)
  else 0

/-- `dup_count.rolling(7, min_periods=1).median().fillna(0)` at day `d`. -/
def dup_baseline (es : List Event) (d : Nat) : ℚ :=
  qmedian ((rollingWindow (dupDays es) d).map fun x => (dup_count es x : ℚ))

/-- The argument of the exponential decay,
`dup_count / (dup_baseline + 1)`, at day `d`. -/
def uniqArg (es : List Event) (d : Nat) : ℚ :=
  (dup_count es d : ℚ) / (dup_baseline es d + 1)

/-- The `score_uniqueness` column: `np.exp(-(dup_count/(dup_baseline+1)))` on
the duplicate-day index, 0 elsewhere after `fillna(0)`. -/
noncomputable def score_uniqueness (es : List Event) (d : Nat) : ℝ :=
  if 0 < dup_count es d then Real.exp (-((uniqArg es d : ℚ) : ℝ)) else 0

/-- `sessions.mean()`: mean of the session Series' values, i.e. over the days
carrying at least one session event. -/
def sessMean (es : List Event) : ℚ :=
  (((sessDays es).map fun d => (session_events es d : ℚ)).sum) / ((sessDays es).length : ℚ)

/-- The square of `sessions.std(ddof=0)`: population variance of the session
Series' values. -/
def sessVar (es : List Event) : ℚ :=
  (((sessDays es).map fun d => ((session_events es d : ℚ) - sessMean es) ^ 2).sum) /
    ((sessDays es).length : ℚ)

/-- The anomaly test `z.abs() > 2.8` as the source evaluates it, stated over
ℚ: the standard deviation is `sqrt sessVar` and is replaced by 1.0 when it is
0 (equivalently, when the variance is 0), so `|x − mean| / std > 2.8` is
equivalent to `(x − mean)² > 2.8² · var` when `var ≠ 0` and to
`|x − mean| > 2.8` when `var = 0`.  Theorem `C6_volume_zscore` proves this
Boolean equal to the `sqrt`-based real formulation. -/
def volume_anomaly_flag (es : List Event) (d : Nat) : Bool :=
  if sessVar es = 0 then decide ((2.8 : ℚ) < |(session_events es d : ℚ) - sessMean es|)
  else decide ((2.8 : ℚ) ^ 2 * sessVar es < ((session_events es d : ℚ) - sessMean es) ^ 2)

/-- The `score_volume` column: `np.where(volume_anomaly_flag == 1, 0.55, 1.00)`
on the session-day index, 0 elsewhere after `fillna(0)`. -/
def score_volume (es : List Event) (d : Nat) : ℚ :=
  if 0 < session_events es d then (if volume_anomaly_flag es d then 0.55 else 1) else 0

/-- The `volume_anomaly_flag` column of the output frame after `fillna(0)`. -/
def volFlagCol (es : List Event) (d : Nat) : Nat :=
  if 0 < session_events es d then (if volume_anomaly_flag es d then 1 else 0) else 0

/-- The `score_validity` column:
`np.where(neg_amount.fillna(0) > 0, 0.0, 1.0)` is built on the index of
`neg_amount` — the days that DO have a negative-amount purchase — where its
condition always holds, and every other day's NaN becomes 0 via `fillna(0)`.
The outer `if` is index membership, the inner `if` is the `np.where`. -/
def score_validity (es : List Event) (d : Nat) : ℚ :=
  if 0 < neg_amount es d then (if 0 < neg_amount es d then 0 else 1) else 0

/-- The `trust_score` column: the weighted sum of the five (filled) score
columns, times 100. -/
noncomputable def trust_score (es : List Event) (d : Nat) : ℝ :=
  100 * (0.30 * ((score_completeness es d : ℚ) : ℝ) +
    0.20 * ((score_schema es d : ℚ) : ℝ) +
    0.20 * score_uniqueness es d +
    0.15 * ((score_volume es d : ℚ) : ℝ) +
    0.15 * ((score_validity es d : ℚ) : ℝ))

/-- The `reason` column, mirroring the source's accumulator loop over the
five conditions in order, then `", ".join(tags) if tags else "ok"`. -/
def reason (es : List Event) (d : Nat) : String :=
  let tags : List String := []
  let tags := if score_completeness es d < 0.70 then tags ++ ["possible_purchase_outage"] else tags
  let tags := if score_schema es d < 1 then tags ++ ["schema_drift_purchase_name"] else tags
  let tags := if score_volume es d < 1 then tags ++ ["traffic_spike_possible_bots"] else tags
  let tags := if 0 < dup_count es d then tags ++ ["duplicates_detected"] else tags
  let tags := if score_validity es d < 1 then tags ++ ["invalid_amount_values"] else tags
  if tags.isEmpty then "ok" else String.intercalate ", " tags

/-- One row of the Daily Quality Record table (the computable columns; the
real-valued derived columns are the functions `score_uniqueness` and
`trust_score`). -/
structure QRow where
  date : Nat
  purchase_events : Nat
  session_events : Nat
  duplicate_events : Nat
  neg_amount_events : Nat
  schema_drift_flag : Nat
  volume_anomaly_flag : Nat
  score_completeness : ℚ
  score_schema : ℚ
  score_volume : ℚ
  score_validity : ℚ
  reason : String
deriving DecidableEq, Repr

/-- The output row of `quality_checks` for day `d` (all columns after the
final `fillna(0)`). -/
def mkRow (es : List Event) (d : Nat) : QRow :=
  { date := d
    purchase_events := purchase_events es d
    session_events := session_events es d
    duplicate_events := dup_count es d
    neg_amount_events := neg_amount es d
    schema_drift_flag := schemaFlagCol es d
    volume_anomaly_flag := volFlagCol es d
    score_completeness := score_completeness es d
    score_schema := score_schema es d
    score_volume := score_volume es d
    score_validity := score_validity es d
    reason := reason es d }

/-- `quality_checks` itself.  On empty input `df["date"].min()` is `NaT` and
`pd.date_range(NaT, NaT, ...)` raises `ValueError`, which the embedding
returns as `none`; on non-empty input the result is one row per calendar day
of the observed range. -/
def quality_checks (es : List Event) : Option (List QRow) :=
  if es.isEmpty then none else some ((daysList es).map (mkRow es))

/-! ### Concrete inputs used by the claim theorems -/

/-- One purchase event with a positive amount on day 0; no negative amounts
anywhere. -/
def exOnePurchase : List Event := [⟨1, 0, .purchase, some 5⟩]

/-- Two distinct session events on day 0; no duplicated tuple. -/
def exTwoSessions : List Event :=
  [⟨1, 0, .session_start, none⟩, ⟨2, 60, .session_start, none⟩]

/-- One `in_app_purchase` event and zero `purchase` events on day 0 — the
schema-drift situation. -/
def exOneIap : List Event := [⟨1, 0, .in_app_purchase, some 5⟩]

/-- A purchase event used to instantiate the trust-score bounds. -/
def exTrust : List Event := [⟨1, 0, .purchase, some 2⟩]

/-- Five purchase events on day 0 and one on day 8, with days 1–7 empty: the
positional rolling window and the calendar window disagree at day 8. -/
def exPurchGap : List Event :=
  [⟨1, 0, .purchase, some 1⟩, ⟨2, 1, .purchase, some 1⟩, ⟨3, 2, .purchase, some 1⟩,
   ⟨4, 3, .purchase, some 1⟩, ⟨5, 4, .purchase, some 1⟩, ⟨1, 691200, .purchase, some 1⟩]

/-- A session event on day 0 and only purchase events on day 1, so day 1 is
in range but absent from the session Series. -/
def exNoSessionDay : List Event :=
  [⟨1, 0, .session_start, none⟩, ⟨1, 60, .purchase, some 1⟩,
   ⟨1, 86460, .purchase, some 2⟩]

/-- A single session event, for instantiating the table-shape theorem. -/
def exOneSession : List Event := [⟨1, 0, .session_start, none⟩]

/-! ### C1, C2, C3, C7: divergences evaluated on the embedded code -/

/-- C1: the validity dimension.  The claim says a day with no negative-amount
purchase events scores 1.00; in the code the `np.where(..., 0.0, 1.0)` Series
lives on the index of `neg_amount` — only the days that DO have a negative
amount — so its 1.0 branch is dead, clean days are NaN in the output frame,
and the final `fillna(0)` turns them into 0.  `score_validity` is 0 on every
day; on the one-clean-purchase input the day has no negative amounts yet
scores 0, not 1.00. -/
theorem C1_validity_stuck_at_zero :
    (∀ (es : List Event) (d : Nat), score_validity es d = 0) ∧
    neg_amount exOnePurchase 0 = 0 ∧ score_validity exOnePurchase 0 = 0 ∧
    ((0 : ℚ) ≠ 1) := by
  refine ⟨fun es d => ?_, by decide, by decide, by norm_num⟩
  by_cases h : 0 < neg_amount es d <;> simp [score_validity, h]

/-- C2: the uniqueness dimension.  The claim says a day with zero duplicate
events scores `exp(-0/(baseline+1)) = 1`; in the code such a day is absent
from the `dup_count` Series, so `score_uniqueness` is NaN there and the final
`fillna(0)` turns it into 0.  On a two-event input with no duplicated tuple,
day 0 has `dup_count = 0` and `score_uniqueness = 0`, not 1. -/
theorem C2_uniqueness_zero_on_clean_day :
    dup_count exTwoSessions 0 = 0 ∧ score_uniqueness exTwoSessions 0 = 0 ∧
    ((0 : ℝ) ≠ 1) := by
  refine ⟨by decide, ?_, by norm_num⟩
  have h : ¬ 0 < dup_count exTwoSessions 0 := by decide
  simp [score_uniqueness, h]

/-- C3: schema drift is never flagged.  `has_purchase == 0` is evaluated on
the index of `has_purchase` — days that DO have a `purchase` event, where the
stored value is 1 — so it is `False` everywhere it is defined, and the pandas
`&` fills the remaining (aligned) positions with `False` as well: the flag is
identically 0.  On the drifted input (one `in_app_purchase`, zero `purchase`)
the flag stays 0 and `score_schema` is 1.00, not 0.60 as the claim states. -/
theorem C3_schema_drift_never_flagged :
    (∀ (es : List Event) (d : Nat), schema_drift_flag es d = false) ∧
    iapCount exOneIap 0 = 1 ∧ purchaseNameCount exOneIap 0 = 0 ∧
    schemaFlagCol exOneIap 0 = 0 ∧ score_schema exOneIap 0 = 1 := by
  refine ⟨fun es d => ?_, by decide, by decide, by decide, by decide⟩
  by_cases h : 0 < purchaseNameCount es d <;>
    simp [schema_drift_flag, alignedAnd, has_purchase, h]

/-- C7: on empty input `df["date"].min()` is `NaT`, and
`pd.date_range(NaT, NaT, freq="D", tz="UTC")` raises `ValueError`, embedded
as `none`: `quality_checks` errors instead of returning the empty Daily
Quality Record table the claim describes. -/
theorem C7_empty_input_errors : quality_checks ([] : List Event) = none := rfl

/-! ### C8: the reason tagger -/

/-- The list of applicable tags as the claim enumerates them: each of the
five conditions contributes its tag independently, in the fixed order. -/
def tagList (es : List Event) (d : Nat) : List String :=
  (if score_completeness es d < 0.70 then ["possible_purchase_outage"] else []) ++
  (if score_schema es d < 1 then ["schema_drift_purchase_name"] else []) ++
  (if score_volume es d < 1 then ["traffic_spike_possible_bots"] else []) ++
  (if 0 < dup_count es d then ["duplicates_detected"] else []) ++
  (if score_validity es d < 1 then ["invalid_amount_values"] else [])

/-- C8: for every day, `reason` is the `", "`-join of exactly the applicable
tags in the fixed order completeness, schema, volume, duplicates, validity,
and it is the literal `"ok"` exactly when zero tags apply. -/
theorem C8_reason_tags (es : List Event) (d : Nat) :
    reason es d =
      (if tagList es d = [] then "ok" else String.intercalate ", " (tagList es d)) ∧
    (reason es d = "ok" ↔ tagList es d = []) := by
  simp only [reason, tagList]
  split_ifs <;> simp_all <;> decide

/-! ### C10 -/

/-- Rename every `purchase` event of day `d` to `in_app_purchase`, leaving
all other fields and all other events untouched. -/
def renameDayPurchases (d : Nat) (es : List Event) : List Event :=
  es.map fun e =>
    if eday e == d && (e.event_name == .purchase) then
      { e with event_name := .in_app_purchase }
    else e

/-- C10: `purchase_events` counts `purchase` and `in_app_purchase` events
together, so renaming all of a day's `purchase` events to `in_app_purchase`
changes no day's `purchase_events` count and, by itself, no day's
`score_completeness`. -/
theorem C10_rename_preserves_completeness (es : List Event) (d dd : Nat) :
    purchase_events (renameDayPurchases d es) dd = purchase_events es dd ∧
    score_completeness (renameDayPurchases d es) dd = score_completeness es dd := by
  have hc : ∀ x, purchase_events (renameDayPurchases d es) x = purchase_events es x := by
    intro x
    unfold purchase_events renameDayPurchases
    rw [List.countP_map]
    apply List.countP_congr
    intro e _
    by_cases h : eday e == d && (e.event_name == .purchase)
    · obtain ⟨hd, hname⟩ := (Bool.and_eq_true _ _).mp h
      have hd' : eday e = d := beq_iff_eq.mp hd
      have hname' : e.event_name = .purchase := beq_iff_eq.mp hname
      simp [Function.comp, eday, isPurchType, hd', hname', eday] at hd' ⊢
      simp [hd']
    · simp [Function.comp, h]
  have hmap : (renameDayPurchases d es).map eday = es.map eday := by
    unfold renameDayPurchases
    rw [List.map_map]
    apply List.map_congr_left
    intro e _
    by_cases h : eday e == d && (e.event_name == .purchase)
    · obtain ⟨hd, hname⟩ := (Bool.and_eq_true _ _).mp h
      have hd' : eday e = d := beq_iff_eq.mp hd
      have hname' : e.event_name = .purchase := beq_iff_eq.mp hname
      simp [Function.comp, eday] at hd' ⊢
      simp [hd', hname']
    · simp [Function.comp, h]
  have hmin : minDay (renameDayPurchases d es) = minDay es := by
    unfold minDay; rw [hmap]
  have hmax : maxDay (renameDayPurchases d es) = maxDay es := by
    unfold maxDay; rw [hmap]
  have hdays : daysList (renameDayPurchases d es) = daysList es := by
    unfold daysList; rw [hmin, hmax]
  refine ⟨hc dd, ?_⟩
  unfold score_completeness baseline_purchase purchDays
  simp only [hc, hdays]

/-! ### Order and membership facts about the sorting and median helpers -/

theorem insertSorted_mem {x y : ℚ} {l : List ℚ} :
    y ∈ insertSorted x l ↔ y = x ∨ y ∈ l := by
  induction l with
  | nil => simp [insertSorted]
  | cons a t ih =>
    by_cases h : x ≤ a
    · simp [insertSorted, h]
    · simp [insertSorted, h, ih]
      tauto

theorem qsort_mem {y : ℚ} {l : List ℚ} (h : y ∈ qsort l) : y ∈ l := by
  induction l with
  | nil => simp [qsort] at h
  | cons a t ih =>
    have h' : y ∈ insertSorted a (qsort t) := h
    rcases insertSorted_mem.mp h' with rfl | hmem
    · simp
    · simp [ih hmem]

theorem insertSorted_length (x : ℚ) (l : List ℚ) :
    (insertSorted x l).length = l.length + 1 := by
  induction l with
  | nil => rfl
  | cons a t ih =>
    by_cases h : x ≤ a <;> simp [insertSorted, h, ih]

theorem qsort_length (l : List ℚ) : (qsort l).length = l.length := by
  induction l with
  | nil => rfl
  | cons a t ih =>
    show (insertSorted a (qsort t)).length = t.length + 1
    rw [insertSorted_length, ih]

theorem getD_ge {c : ℚ} {s : List ℚ} (hs : ∀ x ∈ s, c ≤ x) {i : Nat}
    (hi : i < s.length) : c ≤ s.getD i 0 := by
  rw [List.getD_eq_getElem s 0 hi]
  exact hs _ (List.getElem_mem hi)

theorem qmedian_ge {c : ℚ} {l : List ℚ} (hne : l ≠ [])
    (h : ∀ x ∈ l, c ≤ x) : c ≤ qmedian l := by
  have hs : ∀ x ∈ qsort l, c ≤ x := fun x hx => h x (qsort_mem hx)
  have hlen : (qsort l).length = l.length := qsort_length l
  have hpos : 0 < (qsort l).length := by
    rw [hlen]; exact List.length_pos.mpr hne
  simp only [qmedian]
  split
  · exact getD_ge hs (Nat.div_lt_self hpos (by norm_num))
  · have h1 : (qsort l).length / 2 < (qsort l).length :=
      Nat.div_lt_self hpos (by norm_num)
    have h2 : (qsort l).length / 2 - 1 < (qsort l).length := by omega
    have := getD_ge hs h1
    have := getD_ge hs h2
    linarith

theorem qmedian_nonneg {l : List ℚ} (h : ∀ x ∈ l, 0 ≤ x) : 0 ≤ qmedian l := by
  rcases eq_or_ne l [] with rfl | hne
  · norm_num [qmedian, qsort]
  · exact qmedian_ge hne h

/-! ### Facts about the day range -/

theorem minDay_le_of_mem {es : List Event} {e : Event} (h : e ∈ es) :
    minDay es ≤ eday e := by
  have hmem : eday e ∈ es.map eday := List.mem_map_of_mem _ h
  cases hmin : (es.map eday).min? with
  | none =>
    exact absurd (List.min?_eq_none_iff.mp hmin)
      (List.ne_nil_of_mem hmem)
  | some a =>
    have := ((List.min?_eq_some_iff (fun x => le_refl x) (fun x y => min_choice x y)
      (fun x y z => le_min_iff)).mp hmin).2 _ hmem
    simpa [minDay, hmin] using this

theorem le_maxDay_of_mem {es : List Event} {e : Event} (h : e ∈ es) :
    eday e ≤ maxDay es := by
  have hmem : eday e ∈ es.map eday := List.mem_map_of_mem _ h
  cases hmax : (es.map eday).max? with
  | none =>
    exact absurd (List.max?_eq_none_iff.mp hmax)
      (List.ne_nil_of_mem hmem)
  | some a =>
    have := ((List.max?_eq_some_iff (fun x => le_refl x) (fun x y => max_choice x y)
      (fun x y z => max_le_iff)).mp hmax).2 _ hmem
    simpa [maxDay, hmax] using this

theorem exists_min_event {es : List Event} (h : es ≠ []) :
    ∃ e ∈ es, eday e = minDay es := by
  have hne : es.map eday ≠ [] := by
    cases es with
    | nil => exact absurd rfl h
    | cons a t => simp
  cases hmin : (es.map eday).min? with
  | none => exact absurd (List.min?_eq_none_iff.mp hmin) hne
  | some a =>
    have hmem : a ∈ es.map eday :=
      List.min?_mem (fun x y => min_choice x y) hmin
    obtain ⟨e, he, heq⟩ := List.mem_map.mp hmem
    exact ⟨e, he, by simp [minDay, hmin, heq]⟩

theorem exists_max_event {es : List Event} (h : es ≠ []) :
    ∃ e ∈ es, eday e = maxDay es := by
  have hne : es.map eday ≠ [] := by
    cases es with
    | nil => exact absurd rfl h
    | cons a t => simp
  cases hmax : (es.map eday).max? with
  | none => exact absurd (List.max?_eq_none_iff.mp hmax) hne
  | some a =>
    have hmem : a ∈ es.map eday :=
      List.max?_mem (fun x y => max_choice x y) hmax
    obtain ⟨e, he, heq⟩ := List.mem_map.mp hmem
    exact ⟨e, he, by simp [maxDay, hmax, heq]⟩

theorem mem_daysList_of {es : List Event} {d : Nat}
    (h1 : minDay es ≤ d) (h2 : d ≤ maxDay es) : d ∈ daysList es := by
  unfold daysList
  rw [List.mem_range'_1]
  omega

theorem minDay_le_maxDay {es : List Event} (h : es ≠ []) :
    minDay es ≤ maxDay es := by
  obtain ⟨e, he, heq⟩ := exists_min_event h
  calc minDay es = eday e := heq.symm
    _ ≤ maxDay es := le_maxDay_of_mem he

theorem of_mem_daysList {es : List Event} {d : Nat} (hne : es ≠ [])
    (h : d ∈ daysList es) : minDay es ≤ d ∧ d ≤ maxDay es := by
  have := minDay_le_maxDay hne
  unfold daysList at h
  rw [List.mem_range'_1] at h
  omega

/-! ### Facts about the rolling window -/

theorem rollingWindow_ne_nil {idx : List Nat} {d : Nat} (h : d ∈ idx) :
    rollingWindow idx d ≠ [] := by
  unfold rollingWindow
  have hmem : d ∈ idx.filter fun x => x ≤ d :=
    List.mem_filter.mpr ⟨h, by simp⟩
  have hpos : 0 < ((idx.filter fun x => x ≤ d).reverse).length := by
    rw [List.length_reverse]
    exact List.length_pos.mpr (List.ne_nil_of_mem hmem)
  apply List.ne_nil_of_length_pos
  rw [List.length_take]
  omega

theorem rollingWindow_subset {idx : List Nat} {d x : Nat}
    (h : x ∈ rollingWindow idx d) : x ∈ idx := by
  unfold rollingWindow at h
  have h1 := List.take_subset 7 _ h
  rw [List.mem_reverse] at h1
  exact (List.mem_filter.mp h1).1

/-! ### C5: the completeness baseline -/

theorem exists_purch_event {es : List Event} {d : Nat}
    (h : 0 < purchase_events es d) :
    ∃ e ∈ es, isPurchType e.event_name = true ∧ eday e = d := by
  obtain ⟨e, he, hp⟩ := List.countP_pos_iff.mp h
  rw [Bool.and_eq_true] at hp
  exact ⟨e, he, hp.1, beq_iff_eq.mp hp.2⟩

theorem mem_purchDays {es : List Event} {d : Nat}
    (h : 0 < purchase_events es d) : d ∈ purchDays es := by
  obtain ⟨e, he, -, rfl⟩ := exists_purch_event h
  refine List.mem_filter.mpr ⟨mem_daysList_of (minDay_le_of_mem he) (le_maxDay_of_mem he), ?_⟩
  simpa using h

theorem baseline_purchase_ge_one {es : List Event} {d : Nat}
    (h : 0 < purchase_events es d) : 1 ≤ baseline_purchase es d := by
  have hd : d ∈ purchDays es := mem_purchDays h
  unfold baseline_purchase
  apply qmedian_ge
  · simp only [ne_eq, List.map_eq_nil_iff]
    exact rollingWindow_ne_nil hd
  · intro x hx
    obtain ⟨a, ha, rfl⟩ := List.mem_map.mp hx
    have ha' : a ∈ purchDays es := rollingWindow_subset ha
    have hpos : 0 < purchase_events es a := by
      have := (List.mem_filter.mp ha').2
      simpa using this
    exact_mod_cast Nat.one_le_iff_ne_zero.mpr (Nat.pos_iff_ne_zero.mp hpos)

/-- C5 (amended): for every day, a day with zero purchase-type events has
`score_completeness = 0`; a day with at least one purchase-type event has a
baseline that is the positional trailing-window median over the
purchase-carrying days, which is always at least 1 (so the zero/undefined
fallback never fires there), and `score_completeness` is exactly
`min(purchase_events / baseline, 1)`. -/
theorem C5_positional_baseline (es : List Event) (d : Nat) :
    (purchase_events es d = 0 → score_completeness es d = 0) ∧
    (0 < purchase_events es d →
      1 ≤ baseline_purchase es d ∧
      score_completeness es d =
        min ((purchase_events es d : ℚ) / baseline_purchase es d) 1) := by
  constructor
  · intro h
    unfold score_completeness
    rw [if_neg]
    omega
  · intro h
    have hb := baseline_purchase_ge_one h
    have hbne : baseline_purchase es d ≠ 0 := by
      intro h0; rw [h0] at hb; norm_num at hb
    refine ⟨hb, ?_⟩
    unfold score_completeness
    rw [if_pos h, if_neg hbne]
    congr 1
    rw [max_eq_left]
    exact div_nonneg (Nat.cast_nonneg _) (by linarith)

/-- Spec-side companion definition, following the claim's words rather than
the source: the baseline at day `d` is the median of `purchase_events` over
the trailing 7 CALENDAR days ending at `d` inclusive (days with zero
purchase-type events contributing their count 0). -/
def specBaselineCal (es : List Event) (d : Nat) : ℚ :=
  qmedian ((List.range' (d - 6) 7).map fun x => (purchase_events es x : ℚ))

/-- Spec-side companion definition, following the claim's words:
`clamp(purchase_events / baseline, 0, 1)` with the calendar baseline, and 0
when that baseline is zero (undefined). -/
def specCompleteness (es : List Event) (d : Nat) : ℚ :=
  if specBaselineCal es d = 0 then 0
  else min (max ((purchase_events es d : ℚ) / specBaselineCal es d) 0) 1

unseal Rat.add Rat.mul Rat.inv Rat.sub in
/-- C5 (counterexample): with five purchase events on day 0 and one on day 8,
the code's baseline at day 8 is the median over the positional window
`[day 0, day 8]`, namely `median(5, 1) = 3`, giving completeness `1/3`; the
claim's trailing-7-calendar-day median over days 2..8 is `median(0,0,0,0,0,0,1)
= 0`, whose zero/undefined fallback forces completeness 0. -/
theorem C5_calendar_baseline_counterexample :
    score_completeness exPurchGap 8 = 1/3 ∧ baseline_purchase exPurchGap 8 = 3 ∧
    specBaselineCal exPurchGap 8 = 0 ∧ specCompleteness exPurchGap 8 = 0 ∧
    ((1/3 : ℚ) ≠ 0) := by
  refine ⟨by decide, by decide, by decide, by decide, by norm_num⟩

/-- C5 (witness): the amended statement applied at day 8 of the concrete
input, with its hypothesis discharged by evaluation. -/
theorem C5_positional_baseline_witness :
    1 ≤ baseline_purchase exPurchGap 8 ∧
    score_completeness exPurchGap 8 =
      min ((purchase_events exPurchGap 8 : ℚ) / baseline_purchase exPurchGap 8) 1 :=
  (C5_positional_baseline exPurchGap 8).2 (by decide)

/-! ### C4: score and trust bounds -/

theorem score_completeness_bounds (es : List Event) (d : Nat) :
    0 ≤ score_completeness es d ∧ score_completeness es d ≤ 1 := by
  unfold score_completeness
  split_ifs with h1 h2
  · norm_num
  · constructor
    · exact le_min (le_max_right _ _) (by norm_num)
    · exact min_le_right _ _
  · norm_num

theorem score_schema_bounds (es : List Event) (d : Nat) :
    0 ≤ score_schema es d ∧ score_schema es d ≤ 1 := by
  unfold score_schema
  split_ifs <;> norm_num

theorem score_volume_bounds (es : List Event) (d : Nat) :
    0 ≤ score_volume es d ∧ score_volume es d ≤ 1 := by
  unfold score_volume
  split_ifs <;> norm_num

theorem score_validity_bounds (es : List Event) (d : Nat) :
    0 ≤ score_validity es d ∧ score_validity es d ≤ 1 := by
  unfold score_validity
  split_ifs <;> norm_num

theorem dup_baseline_nonneg (es : List Event) (d : Nat) :
    0 ≤ dup_baseline es d := by
  unfold dup_baseline
  apply qmedian_nonneg
  intro x hx
  obtain ⟨a, -, rfl⟩ := List.mem_map.mp hx
  exact Nat.cast_nonneg _

theorem uniqArg_nonneg (es : List Event) (d : Nat) : 0 ≤ uniqArg es d := by
  unfold uniqArg
  have := dup_baseline_nonneg es d
  exact div_nonneg (Nat.cast_nonneg _) (by linarith)

theorem score_uniqueness_bounds (es : List Event) (d : Nat) :
    0 ≤ score_uniqueness es d ∧ score_uniqueness es d ≤ 1 := by
  unfold score_uniqueness
  split_ifs
  · constructor
    · exact (Real.exp_pos _).le
    · calc Real.exp (-((uniqArg es d : ℚ) : ℝ)) ≤ Real.exp 0 := by
            rw [Real.exp_le_exp]
            have h := uniqArg_nonneg es d
            have : (0 : ℝ) ≤ ((uniqArg es d : ℚ) : ℝ) := by exact_mod_cast h
            linarith
        _ = 1 := Real.exp_zero
  · norm_num

/-- C4: `trust_score` is exactly `100 ×` the fixed weighted sum of the five
dimension scores, every dimension score lies in `[0, 1]`, and the trust score
lies in `[0, 100]`, on every row of the output. -/
theorem C4_trust_formula_and_bounds (es : List Event) (d : Nat)
    (_hne : es ≠ []) (_h1 : minDay es ≤ d) (_h2 : d ≤ maxDay es) :
    trust_score es d =
      100 * (0.30 * ((score_completeness es d : ℚ) : ℝ) +
        0.20 * ((score_schema es d : ℚ) : ℝ) +
        0.20 * score_uniqueness es d +
        0.15 * ((score_volume es d : ℚ) : ℝ) +
        0.15 * ((score_validity es d : ℚ) : ℝ)) ∧
    (0 ≤ score_completeness es d ∧ score_completeness es d ≤ 1) ∧
    (0 ≤ score_schema es d ∧ score_schema es d ≤ 1) ∧
    (0 ≤ score_uniqueness es d ∧ score_uniqueness es d ≤ 1) ∧
    (0 ≤ score_volume es d ∧ score_volume es d ≤ 1) ∧
    (0 ≤ score_validity es d ∧ score_validity es d ≤ 1) ∧
    (0 ≤ trust_score es d ∧ trust_score es d ≤ 100) := by
  obtain ⟨c0, c1⟩ := score_completeness_bounds es d
  obtain ⟨s0, s1⟩ := score_schema_bounds es d
  obtain ⟨u0, u1⟩ := score_uniqueness_bounds es d
  obtain ⟨v0, v1⟩ := score_volume_bounds es d
  obtain ⟨w0, w1⟩ := score_validity_bounds es d
  have c0' : (0:ℝ) ≤ ((score_completeness es d : ℚ) : ℝ) := by exact_mod_cast c0
  have c1' : ((score_completeness es d : ℚ) : ℝ) ≤ 1 := by exact_mod_cast c1
  have s0' : (0:ℝ) ≤ ((score_schema es d : ℚ) : ℝ) := by exact_mod_cast s0
  have s1' : ((score_schema es d : ℚ) : ℝ) ≤ 1 := by exact_mod_cast s1
  have v0' : (0:ℝ) ≤ ((score_volume es d : ℚ) : ℝ) := by exact_mod_cast v0
  have v1' : ((score_volume es d : ℚ) : ℝ) ≤ 1 := by exact_mod_cast v1
  have w0' : (0:ℝ) ≤ ((score_validity es d : ℚ) : ℝ) := by exact_mod_cast w0
  have w1' : ((score_validity es d : ℚ) : ℝ) ≤ 1 := by exact_mod_cast w1
  refine ⟨rfl, ⟨c0, c1⟩, ⟨s0, s1⟩, ⟨u0, u1⟩, ⟨v0, v1⟩, ⟨w0, w1⟩, ?_, ?_⟩
  · unfold trust_score
    nlinarith [u0, u1]
  · unfold trust_score
    nlinarith [u0, u1]

/-- C4 (witness): the bounds instantiated on a concrete one-event input at
day 0, every hypothesis discharged by evaluation. -/
theorem C4_trust_formula_and_bounds_witness :
    0 ≤ trust_score exTrust 0 ∧ trust_score exTrust 0 ≤ 100 :=
  (C4_trust_formula_and_bounds exTrust 0 (by decide) (by decide)
    (by decide)).2.2.2.2.2.2

/-! ### C6: the volume dimension -/

theorem sessVar_nonneg (es : List Event) : 0 ≤ sessVar es := by
  unfold sessVar
  apply div_nonneg
  · apply List.sum_nonneg
    intro x hx
    obtain ⟨a, -, rfl⟩ := List.mem_map.mp hx
    exact sq_nonneg _
  · exact Nat.cast_nonneg _

/-- `sessions.std(ddof=0)` as the source computes it: the square root of the
population variance. -/
noncomputable def sessStd (es : List Event) : ℝ :=
  Real.sqrt ((sessVar es : ℚ) : ℝ)

/-- The z-score of the source, `(sessions - mean) / (std if std != 0 else 1.0)`,
at day `d`. -/
noncomputable def zscore (es : List Event) (d : Nat) : ℝ :=
  (((session_events es d : ℚ) : ℝ) - ((sessMean es : ℚ) : ℝ)) /
    (if sessStd es = 0 then 1 else sessStd es)

/-- C6 (amended): the mean and standard deviation are taken over the days
carrying at least one session event (the `sessions` Series), not over every
day of the range; for those days the flag is set exactly when `|z| > 2.8` and
the score is 0.55 when flagged, 1.00 otherwise; a day of the range with zero
session events is absent from the Series and gets `score_volume = 0` and
`volume_anomaly_flag = 0` from the final `fillna(0)`. -/
theorem C6_volume_zscore (es : List Event) (d : Nat) :
    (session_events es d = 0 → score_volume es d = 0 ∧ volFlagCol es d = 0) ∧
    (0 < session_events es d →
      (volume_anomaly_flag es d = true ↔ 2.8 < |zscore es d|) ∧
      score_volume es d = (if volume_anomaly_flag es d then 0.55 else 1)) := by
  constructor
  · intro h
    unfold score_volume volFlagCol
    rw [if_neg (by omega), if_neg (by omega)]
    exact ⟨rfl, rfl⟩
  · intro h
    refine ⟨?_, by unfold score_volume; rw [if_pos h]⟩
    unfold volume_anomaly_flag zscore sessStd
    have habs : |((session_events es d : ℚ) : ℝ) - ((sessMean es : ℚ) : ℝ)| =
        ((|(session_events es d : ℚ) - sessMean es| : ℚ) : ℝ) := by
      push_cast
      ring_nf
    by_cases hv : sessVar es = 0
    · have hs : Real.sqrt ((sessVar es : ℚ) : ℝ) = 0 := by
        rw [hv]; simp
      rw [if_pos hv, hs, if_pos rfl, div_one, decide_eq_true_eq, habs,
        show (2.8:ℝ) = (((2.8:ℚ)):ℝ) by norm_num, Rat.cast_lt]
    · have hv0 : 0 < sessVar es := lt_of_le_of_ne (sessVar_nonneg es) (Ne.symm hv)
      have hvR : (0:ℝ) < ((sessVar es : ℚ) : ℝ) := by exact_mod_cast hv0
      have hsp : 0 < Real.sqrt ((sessVar es : ℚ) : ℝ) := Real.sqrt_pos.mpr hvR
      rw [if_neg hv, if_neg (ne_of_gt hsp), decide_eq_true_eq, abs_div,
        abs_of_pos hsp, lt_div_iff₀ hsp, habs]
      rw [show ((session_events es d : ℚ) - sessMean es) ^ 2 =
        |(session_events es d : ℚ) - sessMean es| ^ 2 from (sq_abs _).symm]
      set q : ℚ := |(session_events es d : ℚ) - sessMean es| with hq
      constructor
      · intro hlt
        apply lt_of_pow_lt_pow_left₀ 2 (Rat.cast_nonneg.mpr (abs_nonneg _))
        rw [mul_pow, Real.sq_sqrt hvR.le]
        calc (2.8:ℝ) ^ 2 * ((sessVar es : ℚ) : ℝ)
            = (((2.8:ℚ) ^ 2 * sessVar es : ℚ) : ℝ) := by push_cast; norm_num
          _ < ((q ^ 2 : ℚ) : ℝ) := by exact_mod_cast hlt
          _ = ((q : ℚ) : ℝ) ^ 2 := by push_cast; ring
      · intro hlt
        have hnn : 0 ≤ (2.8:ℝ) * Real.sqrt ((sessVar es : ℚ) : ℝ) := by positivity
        have h2 := pow_lt_pow_left₀ hlt hnn two_ne_zero
        rw [mul_pow, Real.sq_sqrt hvR.le] at h2
        have hfin : (((2.8:ℚ) ^ 2 * sessVar es : ℚ) : ℝ) < ((q ^ 2 : ℚ) : ℝ) := by
          calc (((2.8:ℚ) ^ 2 * sessVar es : ℚ) : ℝ)
              = (2.8:ℝ) ^ 2 * ((sessVar es : ℚ) : ℝ) := by push_cast; norm_num
            _ < ((q : ℚ) : ℝ) ^ 2 := h2
            _ = ((q ^ 2 : ℚ) : ℝ) := by push_cast; ring
        exact_mod_cast hfin

unseal Rat.add Rat.mul Rat.inv Rat.sub Rat.ofScientific in
/-- C6 (counterexample): on the input with a session event on day 0 and only
purchase events on day 1, day 1 lies in the observed range, but its
`score_volume` is 0 — neither 0.55 (flagged) nor 1.00 (unflagged) — because
the day is absent from the session Series and `fillna(0)` fills the score
with 0; the claim as stated admits only 0.55 or 1.00 for days in range. -/
theorem C6_zero_session_day_counterexample :
    minDay exNoSessionDay ≤ 1 ∧ 1 ≤ maxDay exNoSessionDay ∧
    session_events exNoSessionDay 1 = 0 ∧
    score_volume exNoSessionDay 1 = 0 ∧
    ((0 : ℚ) ≠ 0.55) ∧ ((0 : ℚ) ≠ 1) := by
  refine ⟨by decide, by decide, by decide, by decide, by decide, by norm_num⟩

/-- C6 (witness): the amended statement applied at day 0 of the concrete
input (which has a session event), the hypothesis discharged by
evaluation. -/
theorem C6_volume_zscore_witness :
    (volume_anomaly_flag exNoSessionDay 0 = true ↔ 2.8 < |zscore exNoSessionDay 0|) ∧
    score_volume exNoSessionDay 0 =
      (if volume_anomaly_flag exNoSessionDay 0 then 0.55 else 1) :=
  (C6_volume_zscore exNoSessionDay 0).2 (by decide)

/-! ### C9: the shape of the output table -/

theorem countP_beq_of_nodup {l : List Nat} (hl : l.Nodup) (d : Nat) :
    l.countP (fun x => x == d) = if d ∈ l then 1 else 0 := by
  induction l with
  | nil => simp
  | cons a t ih =>
    rw [List.countP_cons]
    obtain ⟨ha, ht⟩ := List.nodup_cons.mp hl
    rw [ih ht]
    by_cases had : a = d
    · subst had
      simp [ha]
    · simp [had, Ne.symm had]

/-- C9: for non-empty input, `quality_checks` succeeds and returns exactly
one record for every calendar day between the smallest and the largest event
day (both attained by events), and a day of the range carrying no event at
all has all four counts and both flags equal to 0. -/
theorem C9_one_row_per_day (es : List Event) (h : es ≠ []) :
    ∃ rows, quality_checks es = some rows ∧
      (∃ e ∈ es, eday e = minDay es) ∧ (∃ e ∈ es, eday e = maxDay es) ∧
      (∀ e ∈ es, minDay es ≤ eday e ∧ eday e ≤ maxDay es) ∧
      (∀ d, minDay es ≤ d → d ≤ maxDay es →
        rows.countP (fun r => r.date == d) = 1) ∧
      (∀ r ∈ rows, minDay es ≤ r.date ∧ r.date ≤ maxDay es) ∧
      (∀ r ∈ rows, (∀ e ∈ es, eday e ≠ r.date) →
        r.purchase_events = 0 ∧ r.session_events = 0 ∧ r.duplicate_events = 0 ∧
        r.neg_amount_events = 0 ∧ r.schema_drift_flag = 0 ∧
        r.volume_anomaly_flag = 0) := by
  have hnn : ¬ es.isEmpty := by
    cases es with
    | nil => exact absurd rfl h
    | cons a t => simp
  refine ⟨(daysList es).map (mkRow es), by simp [quality_checks, hnn], ?_, ?_, ?_, ?_, ?_, ?_⟩
  · exact exists_min_event h
  · exact exists_max_event h
  · exact fun e he => ⟨minDay_le_of_mem he, le_maxDay_of_mem he⟩
  · intro d h1 h2
    rw [List.countP_map]
    have heq : ((fun r => r.date == d) ∘ mkRow es) = fun x => x == d := by
      funext x
      simp [mkRow]
    rw [heq, countP_beq_of_nodup (by unfold daysList; exact List.nodup_range' _ _),
      if_pos (mem_daysList_of h1 h2)]
  · intro r hr
    obtain ⟨x, hx, rfl⟩ := List.mem_map.mp hr
    exact of_mem_daysList h hx
  · intro r hr hno
    obtain ⟨x, hx, rfl⟩ := List.mem_map.mp hr
    have hzero : ∀ (p : Event → Bool),
        es.countP (fun e => p e && (eday e == x)) = 0 := by
      intro p
      rw [List.countP_eq_zero]
      intro e he
      have := hno e he
      simp only [mkRow] at this
      simp [this]
    constructor
    · simpa [mkRow, purchase_events] using hzero fun e => isPurchType e.event_name
    constructor
    · simpa [mkRow, session_events] using hzero fun e => e.event_name == .session_start
    constructor
    · show dup_count es x = 0
      rw [dup_count, List.countP_eq_zero]
      intro e he
      have := hno e he
      simp only [mkRow] at this
      simp [this]
    constructor
    · show neg_amount es x = 0
      rw [neg_amount, List.countP_eq_zero]
      intro e he
      have := hno e he
      simp only [mkRow] at this
      simp [this]
    constructor
    · show schemaFlagCol es x = 0
      have hp : purchase_events es x = 0 := by
        simpa [purchase_events] using hzero fun e => isPurchType e.event_name
      unfold schemaFlagCol
      rw [if_neg (by omega)]
    · show volFlagCol es x = 0
      have hs : session_events es x = 0 := by
        simpa [session_events] using hzero fun e => e.event_name == .session_start
      unfold volFlagCol
      rw [if_neg (by omega)]

/-- C9 (witness): the table-shape theorem applied to a concrete one-event
input, the non-emptiness hypothesis discharged by evaluation. -/
theorem C9_one_row_per_day_witness :
    exOneSession ≠ [] ∧ (quality_checks exOneSession).isSome := by
  refine ⟨by decide, ?_⟩
  obtain ⟨rows, hrows, -⟩ := C9_one_row_per_day exOneSession (by decide)
  rw [hrows]
  rfl
